import Mathlib

/-!
Verification development for the `anchord` daemon supervisor
(`anchord.py`): a shallow embedding of its path resolution, version
normalisation and comparison, readiness probing, log tailing and
startup-monitoring logic, followed by theorems about the embedded
definitions.

Conventions of the embedding:
* Python strings are Lean `String`s; where character-level reasoning is
  needed (log files, path components) we work on `List Char` (the data of
  a `String`).
* Machine state touched through the OS (filesystem, subprocesses, HTTP)
  is passed explicitly through environment records (`FSEnv`, `ProcEnv`)
  or plain arguments (file contents as `Option (List Char)`).
* Python code that can raise is embedded with `Except`/`Option`; a
  function that the source guarantees total is embedded as a total
  function.
-/

/-! ## Python string primitives -/

/-- `needle` is a prefix of `hay` (Python `str.startswith` on char lists). -/
def startsWithL : List Char → List Char → Bool
  | [], _ => true
  | _ :: _, [] => false
  | a :: as, b :: bs => a == b && startsWithL as bs

/-- Python `needle in hay` substring test, on char lists. -/
def containsSubL (needle : List Char) : List Char → Bool
  | [] => startsWithL needle []
  | c :: rest => startsWithL needle (c :: rest) || containsSubL needle rest

/-- Python `str.strip()` on char lists: drop whitespace from both ends. -/
def pyStripL (cs : List Char) : List Char :=
  ((cs.dropWhile Char.isWhitespace).reverse.dropWhile Char.isWhitespace).reverse

/-- Python `str.strip()` on strings. -/
def pyStrip (s : String) : String :=
  ⟨pyStripL s.data⟩

/-! ## Path manipulation (`os.path`, POSIX flavour) -/

/-- Split a char list on `/` (helper for `os.path.normpath`). -/
def splitSlashAux : List Char → List Char → List (List Char)
  | [], acc => [acc.reverse]
  | c :: rest, acc =>
    if c = '/' then acc.reverse :: splitSlashAux rest []
    else splitSlashAux rest (c :: acc)

def splitSlash (cs : List Char) : List (List Char) :=
  splitSlashAux cs []

/-- The component-normalisation loop of `posixpath.normpath`: drop empty
and `.` components, resolve `..` against the accumulated components
(`acc` is kept reversed). -/
def normComps (withRoot : Bool) : List (List Char) → List (List Char) → List (List Char)
  | [], acc => acc.reverse
  | c :: rest, acc =>
    if c = [] ∨ c = ['.'] then normComps withRoot rest acc
    else if c ≠ ['.', '.'] then normComps withRoot rest (c :: acc)
    else
      match acc with
      | [] => if withRoot then normComps withRoot rest [] else normComps withRoot rest [c]
      | a :: as =>
        if a = ['.', '.'] then normComps withRoot rest (c :: a :: as)
        else normComps withRoot rest as

/-- `posixpath.normpath` on char lists. -/
def normpathL (cs : List Char) : List Char :=
  if cs = [] then ['.']
  else
    let ini : Nat :=
      if startsWithL ['/', '/'] cs ∧ ¬ startsWithL ['/', '/', '/'] cs then 2
      else if startsWithL ['/'] cs then 1 else 0
    let body := List.intercalate ['/'] (normComps (ini > 0) (splitSlash cs) [])
    let out := List.replicate ini '/' ++ body
    if out = [] then ['.'] else out

/-- `posixpath.join` for two arguments, on char lists. -/
def pyJoinL (a b : List Char) : List Char :=
  if startsWithL ['/'] b then b
  else if a = [] ∨ a.getLast? = some '/' then a ++ b
  else a ++ '/' :: b

/-- `posixpath.basename`: the part after the last `/`. -/
def afterLastSlash (cs : List Char) : List Char :=
  (cs.reverse.takeWhile (fun c => c ≠ '/')).reverse

def pyBasename (s : String) : String :=
  ⟨afterLastSlash s.data⟩

/-! ## Filesystem environment

The OS-visible state read by the executable resolver: the script's
directory (`os.path.dirname(os.path.abspath(__file__))`), the home
directories used by `os.path.expanduser`, the existence / file-kind /
execute-permission predicates, and `shutil.which` (PATH lookup). -/

structure FSEnv where
  /-- `os.path.dirname(os.path.abspath(__file__))`. -/
  scriptDir : String
  /-- home directory of the current user (`expanduser("~")`). -/
  home : String
  /-- home directory of a named user (`expanduser("~name")`), `none`
  when the pwd database has no such user. -/
  userHome : String → Option String
  /-- `os.path.isfile`. -/
  isFile : String → Bool
  /-- `os.path.exists`. -/
  pathExists : String → Bool
  /-- `os.access(p, os.X_OK)`. -/
  accessX : String → Bool
  /-- `shutil.which`: resolve a name through PATH. -/
  which : String → Option String

/-- Well-formedness of the filesystem environment: the script directory
is absolute (it is produced by `os.path.abspath`), and a path that is a
regular file exists. -/
structure FSEnv.WF (env : FSEnv) : Prop where
  scriptAbs : startsWithL ['/'] env.scriptDir.data = true
  fileExists : ∀ p, env.isFile p = true → env.pathExists p = true

/-- `os.path.expanduser` (POSIX): expand a leading `~` or `~name`. -/
def expanduser (env : FSEnv) (path : String) : String :=
  match path.data with
  | '~' :: rest =>
    let name := rest.takeWhile (fun c => c ≠ '/')
    let tail := rest.drop name.length
    let uh? := if name = [] then some env.home else env.userHome ⟨name⟩
    match uh? with
    | none => path
    | some uh =>
      let uhs := (uh.data.reverse.dropWhile (fun c => c = '/')).reverse
      let r := uhs ++ tail
      if r = [] then "/" else ⟨r⟩
  | _ => path

/-- `_expand_abs` from `anchord.py`: empty passes through; otherwise
expand `~`, keep absolute paths, and resolve relative paths against
the script directory (`os.path.abspath(os.path.join(base, path))`,
where the join argument is already absolute, so `abspath` is
`normpath`). -/
def _expand_abs (env : FSEnv) (path : String) : String :=
  if path = "" then path
  else
    let p := expanduser env path
    if startsWithL ['/'] p.data then p
    else ⟨normpathL (pyJoinL env.scriptDir.data p.data)⟩

/-- `_is_gvfs_path` from `anchord.py`. -/
def _is_gvfs_path (path : String) : Bool :=
  startsWithL "/run/user/".data path.data && containsSubL "/gvfs/".data path.data

/-- `resolve_executable` from `anchord.py`: `None` for empty input;
otherwise expand, try PATH when the expanded string has no separator,
else require a regular file with execute permission. -/
def resolve_executable (env : FSEnv) (path : String) : Option String :=
  if path = "" then none
  else
    let p := _expand_abs env path
    if pyBasename p = p then
      match env.which p with
      | some found => if found = "" then none else some found
      | none => none
    else if env.isFile p && env.accessX p then some p
    else none

/-- `red_error` from `anchord.py` wraps text in terminal colour escapes
(via pygments); the styling is presentation-only and not modelled, so
the embedding returns the text unchanged. -/
def red_error (text : String) : String := text

/-- `explain_exec_problem` from `anchord.py`, embedded as the list of
message lines it prints. -/
def explain_exec_problem (env : FSEnv) (label want_path : String) : List String :=
  let msg0 := red_error ("\n[" ++ label ++ "] Cannot execute: " ++ want_path)
  let abs_path := _expand_abs env want_path
  let hints :=
    if env.pathExists abs_path = false then
      ["[!] File not found. Check daemons.json paths"]
    else
      (if env.accessX abs_path = false then
        ["[!] File exists but is not executable (chmod +x)."]
      else []) ++
      (if _is_gvfs_path abs_path then
        ["[!] [!] This appears to be a GVFS/FUSE mount; executing binaries here is often blocked (noexec). Copy the binary to a local filesystem (e.g., /usr/local/bin) and reference that path."]
      else [])
  (msg0 :: hints) ++
    ["[!] Tip: use absolute paths, or put the binary in PATH and set just the program name in daemons.json."]

/-! ## Version normalisation and comparison -/

/-- A raw value coming back from the RPC payload or the release feed:
`None`, a string, or an integer (`normalize_version` documents that it
handles ints and raw values). -/
inductive PyVal where
  | pynone
  | str (s : String)
  | int (n : Int)
deriving DecidableEq

/-- Python `str()` on the values of `PyVal`. -/
def pyStr : PyVal → String
  | .pynone => "None"
  | .str s => s
  | .int n => toString n

/-- Greedy run of ASCII digits at the head of the input (`\d+`), with
the rest of the input; `none` when the head is not a digit. -/
def takeDigits (cs : List Char) : Option (List Char × List Char) :=
  let ds := cs.takeWhile Char.isDigit
  if ds = [] then none else some (ds, cs.drop ds.length)

/-- Match the regex `\d+\.\d+\.\d+(-\d+)?` at the head of the input,
returning the matched characters.  Greedy matching needs no
backtracking here because digits, `.` and `-` are disjoint. -/
def matchSemverAt (cs : List Char) : Option (List Char) :=
  match takeDigits cs with
  | none => none
  | some (d1, r1) =>
    match r1 with
    | '.' :: r1' =>
      match takeDigits r1' with
      | none => none
      | some (d2, r2) =>
        match r2 with
        | '.' :: r2' =>
          match takeDigits r2' with
          | none => none
          | some (d3, r3) =>
            let post : List Char :=
              match r3 with
              | '-' :: r4 =>
                match takeDigits r4 with
                | some (d4, _) => '-' :: d4
                | none => []
              | _ => []
            some (d1 ++ '.' :: d2 ++ '.' :: d3 ++ post)
        | _ => none
    | _ => none

/-- `re.search` for the pattern above: leftmost match. -/
def semverSearchL : List Char → Option (List Char)
  | [] => none
  | c :: rest =>
    match matchSemverAt (c :: rest) with
    | some m => some m
    | none => semverSearchL rest

def semverSearch (s : String) : Option String :=
  (semverSearchL s.data).map (fun m => ⟨m⟩)

/-- The non-`None` branch of `normalize_version` from `anchord.py`:
stringify and strip; a leading `v` is dropped and the remainder
returned immediately; otherwise the first `\d+\.\d+\.\d+(-\d+)?` match
is extracted, falling back to the stripped string. -/
def normalize_core (cs : List Char) : String :=
  match pyStripL cs with
  | 'v' :: rest => ⟨rest⟩
  | s =>
    match semverSearchL s with
    | some m => ⟨m⟩
    | none => ⟨s⟩

def normalize_version (v : PyVal) : String :=
  match v with
  | .pynone => ""
  | v => normalize_core (pyStr v).data

/-- The claim's reading of normalisation (spec §3 invariant): strip a
leading `v` AND then extract the first semver-shaped substring, with the
trimmed original as fallback.  Kept separate from `normalize_version`
(which embeds the source) so the two can be compared. -/
def normalize_version_spec (v : PyVal) : String :=
  match v with
  | .pynone => ""
  | v =>
    let s :=
      match pyStripL (pyStr v).data with
      | 'v' :: rest => rest
      | s => s
    match semverSearchL s with
    | some m => (⟨m⟩ : String)
    | none => ⟨s⟩

/-- The slice of a PEP 440 version object relevant to this program:
a dotted numeric release and an optional (implicit, `-N`) post-release.
Models the external `packaging.version.Version`. -/
structure PyVersion where
  release : List Nat
  post : Option Nat
deriving DecidableEq

/-- Numeric value of a digit run. -/
def natOfDigits (ds : List Char) : Nat :=
  ds.foldl (fun a c => a * 10 + (c.toNat - '0'.toNat)) 0

/-- Parse `(.N)*` after the first release component.  Structural
recursion on a fuel argument; every iteration consumes at least two
characters, so fuel `cs.length` (see `parseDotTail`) never runs out. -/
def parseDotTailFuel : Nat → List Nat → List Char → List Nat × List Char
  | 0, acc, cs => (acc, cs)
  | fuel + 1, acc, cs =>
    match cs with
    | '.' :: rest =>
      match takeDigits rest with
      | some (ds, rest') => parseDotTailFuel fuel (acc ++ [natOfDigits ds]) rest'
      | none => (acc, '.' :: rest)
    | _ => (acc, cs)

def parseDotTail (acc : List Nat) (cs : List Char) : List Nat × List Char :=
  parseDotTailFuel cs.length acc cs

/-- Modelled fragment of the external `packaging.version.parse`
(PEP 440): optional surrounding whitespace, an optional `v`/`V` prefix,
a dotted numeric release `N(.N)*`, and an optional implicit post-release
written `-N`.  Inputs outside this fragment are parse failures
(`InvalidVersion`), embedded as `none`.  (The full PEP 440 grammar also
has epochs, pre-releases, dev-releases and local segments; the versions
this program compares do not use them.) -/
def pep440_parse (s : String) : Option PyVersion :=
  let cs := pyStripL s.data
  let cs := match cs with
    | 'v' :: r => r
    | 'V' :: r => r
    | _ => cs
  match takeDigits cs with
  | none => none
  | some (d0, rest0) =>
    let (rel, rest) := parseDotTail [natOfDigits d0] rest0
    match rest with
    | [] => some ⟨rel, none⟩
    | '-' :: r =>
      match takeDigits r with
      | some (ds, []) => some ⟨rel, some (natOfDigits ds)⟩
      | _ => none
    | _ => none

/-- Comparison of Python ints (here: the Nats inside version tuples). -/
def natCmp (a b : Nat) : Ordering :=
  if a < b then .lt else if a = b then .eq else .gt

/-- Python tuple comparison on equal-typed numeric tuples
(lexicographic, shorter-is-smaller prefix rule). -/
def listNatCmp : List Nat → List Nat → Ordering
  | [], [] => .eq
  | [], _ :: _ => .lt
  | _ :: _, [] => .gt
  | a :: as, b :: bs =>
    match natCmp a b with
    | .eq => listNatCmp as bs
    | o => o

/-- The release key of `packaging.version`: trailing zeros dropped, so
that `1.0` and `1.0.0` compare equal. -/
def releaseKey (l : List Nat) : List Nat :=
  (l.reverse.dropWhile (fun x => x = 0)).reverse

/-- Post-release key: a missing post-release sorts below every
`postN` (packaging uses `NegativeInfinity`). -/
def postCmp : Option Nat → Option Nat → Ordering
  | none, none => .eq
  | none, some _ => .lt
  | some _, none => .gt
  | some a, some b => natCmp a b

/-- Ordering of `packaging.version.Version` values restricted to the
modelled fragment: by release key, then by post-release. -/
def pyVersionCmp (a b : PyVersion) : Ordering :=
  match listNatCmp (releaseKey a.release) (releaseKey b.release) with
  | .eq => postCmp a.post b.post
  | o => o

/-- The observable outcome of `check_versions` (which console branch is
taken), as a function of the two raw version values after the local
probe and the remote fetch. -/
inductive VersionOutcome where
  | couldNotDetermine
  | upToDate
  | mismatch
  | localNewer
  | unableToParse
deriving DecidableEq

/-- The comparison core of `check_versions` from `anchord.py` (lines
153-183): normalize both raw values; an empty (falsy) string on either
side reports "Could not determine version(s)"; then both sides are
parsed inside a `try` whose `except` reports "Unable to parse versions";
otherwise the parsed versions are compared. -/
def check_versions_outcome (cli_raw remote_raw : PyVal) : VersionOutcome :=
  let cli_ver := normalize_version cli_raw
  let remote_ver := normalize_version remote_raw
  if cli_ver = "" ∨ remote_ver = "" then .couldNotDetermine
  else
    match pep440_parse cli_ver, pep440_parse remote_ver with
    | some local_version, some remote_version =>
      match pyVersionCmp local_version remote_version with
      | .eq => .upToDate
      | .lt => .mismatch
      | .gt => .localNewer
    | _, _ => .unableToParse

/-! ## Readiness probe (`getinfo`) -/

/-- A `json.loads` result, restricted to what the supervisor inspects:
a flat object with string-rendered values, or a non-object value.
(JSON objects have unique keys, so first-match lookup is adequate.
The Python callers apply `"error" in info` to the result; for a
non-object that membership test is a substring test or a `TypeError`
in the *caller* — outside `getinfo` itself — and is not modelled: the
claims only exercise object payloads.) -/
inductive PyJson where
  | dict (entries : List (String × String))
  | nonDict (tag : String)
deriving DecidableEq

/-- Python `"error" in info` for an object payload. -/
def hasErrorKey : PyJson → Bool
  | .dict es => es.any (fun kv => kv.1 == "error")
  | .nonDict _ => false

/-- Python `info["error"]`, defaulting to `""` (the callers only read it
under `"error" in info`). -/
def lookupError : PyJson → String
  | .dict es => ((es.lookup "error").getD "")
  | .nonDict _ => ""

/-- Result of a completed `subprocess.run`. -/
structure ProcResult where
  returncode : Int
  stdout : String
  stderr : String

/-- The process / parsing environment of a probe: `subprocess.run`
(`.error` is a raised exception rendered by `str(e)`) and `json.loads`
(`.error` is the `JSONDecodeError` message). -/
structure ProcEnv where
  run : List String → Except String ProcResult
  jsonLoads : String → Except String PyJson

/-- `getinfo` from `anchord.py`: run
`[cli_path, "-datadir=<dir>"] ++ cli_args ++ ["getinfo"]`; on exit code
0 return the parsed stdout; on non-zero exit return
`{"error": stderr.strip()}`; any exception (from the invocation or from
`json.loads`) is caught and returned as `{"error": str(e)}`.  The
embedding is a total function: no path raises. -/
def getinfo (env : ProcEnv) (cli_path data_dir : String) (cli_args : List String) : PyJson :=
  match env.run ([cli_path, "-datadir=" ++ data_dir] ++ cli_args ++ ["getinfo"]) with
  | .error e => .dict [("error", e)]
  | .ok result =>
    if result.returncode = 0 then
      match env.jsonLoads result.stdout with
      | .ok j => j
      | .error e => .dict [("error", e)]
    else .dict [("error", pyStrip result.stderr)]

/-! ## Log tailing -/

/-- Split file text into the lines Python's file iteration yields: each
line keeps its trailing newline; a final fragment without a newline is
still a line; empty text yields no lines. -/
def pyLinesAux : List Char → List Char → List (List Char)
  | [], acc => if acc = [] then [] else [acc.reverse]
  | c :: rest, acc =>
    if c = '\n' then (acc.reverse ++ ['\n']) :: pyLinesAux rest []
    else pyLinesAux rest (c :: acc)

def pyLinesL (cs : List Char) : List (List Char) :=
  pyLinesAux cs []

/-- Does the line start with the fixed-width timestamp
`YYYY-MM-DD HH:MM:SS ` (the regex `^\d{4}-\d{2}-\d{2} \d{2}:\d{2}:\d{2} `)? -/
def matchesTimestamp : List Char → Bool
  | y1 :: y2 :: y3 :: y4 :: '-' :: m1 :: m2 :: '-' :: d1 :: d2 :: ' ' ::
      h1 :: h2 :: ':' :: n1 :: n2 :: ':' :: s1 :: s2 :: ' ' :: _ =>
    y1.isDigit && y2.isDigit && y3.isDigit && y4.isDigit &&
    m1.isDigit && m2.isDigit && d1.isDigit && d2.isDigit &&
    h1.isDigit && h2.isDigit && n1.isDigit && n2.isDigit &&
    s1.isDigit && s2.isDigit
  | _ => false

/-- `re.sub(r'^\d{4}-\d{2}-\d{2} \d{2}:\d{2}:\d{2} ', '', line).strip()`. -/
def stripLogLine (cs : List Char) : List Char :=
  pyStripL (if matchesTimestamp cs then cs.drop 20 else cs)

/-- The per-line loop of `read_debug_log`: strip each line, drop
`UpdateTip` noise, suppress a line equal to the last emitted message,
and thread the last emitted message. -/
def processLogLines : List (List Char) → Option (List Char) → List (List Char) × Option (List Char)
  | [], last_message => ([], last_message)
  | l :: ls, last_message =>
    let stripped := stripLogLine l
    if startsWithL "UpdateTip".data stripped then processLogLines ls last_message
    else if some stripped ≠ last_message then
      (stripped :: (processLogLines ls (some stripped)).1,
        (processLogLines ls (some stripped)).2)
    else processLogLines ls last_message

/-- `read_debug_log` from `anchord.py`.  The file argument is the
current content of `<data_dir>/debug.log` (`none` when the file does
not exist, which the source turns into a synthetic "debug.log not
found." line, leaving position and message untouched).  Positions are
character offsets; seeking is `List.drop`, and the final `tell()` is
the seek position plus the characters read (so a position beyond the
end of a shrunk file is returned unchanged). -/
def read_debug_log (file? : Option (List Char)) (last_position : Nat)
    (last_message : Option (List Char)) :
    List (List Char) × Nat × Option (List Char) :=
  match file? with
  | none => (["debug.log not found.".data], last_position, last_message)
  | some content =>
    let tail := content.drop last_position
    ((processLogLines (pyLinesL tail) last_message).1,
      last_position + tail.length,
      (processLogLines (pyLinesL tail) last_message).2)

/-- `get_log_file_position` from `anchord.py`: seek to the end and
`tell()`; a missing file is position 0. -/
def get_log_file_position (file? : Option (List Char)) : Nat :=
  match file? with
  | none => 0
  | some content => content.length

/-! ## Startup monitoring -/

/-- Python `str.split(sep)` for a non-empty separator: scan left to
right, cut at each occurrence of `sep`.  Structural recursion on a fuel
argument; every step consumes at least one character, so fuel
`cs.length + 1` never runs out. -/
def pySplitAux (sep : List Char) : Nat → List Char → List Char → List (List Char)
  | 0, cs, acc => [acc.reverse ++ cs]
  | _ + 1, [], acc => [acc.reverse]
  | fuel + 1, c :: rest, acc =>
    if startsWithL sep (c :: rest) then
      acc.reverse :: pySplitAux sep fuel ((c :: rest).drop sep.length) []
    else pySplitAux sep fuel rest (c :: acc)

/-- Python `s.split(sep)` on strings (`sep` non-empty in all uses). -/
def pySplitOn (s sep : String) : List String :=
  (pySplitAux sep.data (s.data.length + 1) s.data []).map (fun l => ⟨l⟩)

/-- Extraction and translation of a probe failure into the status text
printed by `monitor_startup`:
`info["error"].split("error message:")[-1].strip()`, then the known
"couldn\x27t connect to server" substring becomes "starting RPC server". -/
def extract_status (errText : String) : String :=
  let error_message := pyStrip ((pySplitOn errText "error message:").getLastD errText)
  if containsSubL "couldn\x27t connect to server".data error_message.data then
    "starting RPC server"
  else error_message

/-- A console line emitted during startup monitoring: a (possibly
translated) status line, a forwarded `debug.log` line, or the final
"daemon initialized - ready for RPC commands" line. -/
inductive MonLine where
  | status (s : String)
  | logline (l : List Char)
  | ready
deriving DecidableEq

/-- The loop of `monitor_startup`, driven by the sequence of `getinfo`
results (one per iteration) and the sequence of `debug.log` contents at
each iteration (`none` = file absent).  The source loop is unbounded;
the embedding returns `(lines, false)` when the probe sequence is
exhausted while still waiting, and `(lines, true)` when a probe without
an `"error"` key terminates the loop. -/
def monitor_go : List PyJson → List (Option (List Char)) → Option String → Nat →
    Option (List Char) → List MonLine × Bool
  | [], _, _, _, _ => ([], false)
  | info :: probes, files, last_error, pos, msg =>
    if hasErrorKey info then
      let error_message := extract_status (lookupError info)
      let sl : List MonLine × Option String :=
        if some error_message ≠ last_error then ([.status error_message], some error_message)
        else ([], last_error)
      let rd := read_debug_log (files.headD none) pos msg
      let rest := monitor_go probes files.tail sl.2 rd.2.1 rd.2.2
      (sl.1 ++ rd.1.map MonLine.logline ++ rest.1, rest.2)
    else ([MonLine.ready], true)

/-- `monitor_startup` from `anchord.py`: initialise `last_error = None`,
`last_message = None` and the log position at the current end of
`debug.log` (skipping existing entries), then loop. -/
def monitor_startup (probes : List PyJson) (files : List (Option (List Char))) :
    List MonLine × Bool :=
  monitor_go probes files none (get_log_file_position (files.headD none)) none

/-- The status lines among the monitor's output, in order. -/
def statusLinesOf (lines : List MonLine) : List String :=
  lines.filterMap fun l =>
    match l with
    | .status s => some s
    | _ => none

/-- `lines` has no two adjacent equal entries, where `prev` is the
status printed just before the list (the monitor's `last_error`). -/
def noAdjDup : Option String → List String → Prop
  | _, [] => True
  | prev, s :: rest => prev ≠ some s ∧ noAdjDup (some s) rest

/-- The branch `main` takes after its initial liveness probe. -/
inductive MainBranch where
  | alreadyRunning
  | launchPath
deriving DecidableEq

/-- The `if "error" in info` dispatch in `main` (lines 360-368):
an `"error"` key sends `main` down the launch-and-monitor path,
otherwise it prints "Daemon is already running.". -/
def main_probe_branch (info : PyJson) : MainBranch :=
  if hasErrorKey info then .launchPath else .alreadyRunning


/-! ## Auxiliary definitions for the statements below -/

/-- Every character is an ASCII digit. -/
def allDigits (cs : List Char) : Bool :=
  cs.all Char.isDigit

/-- `m` has the shape matched by the pattern `\d+\.\d+\.\d+(-\d+)?`:
three non-empty digit runs separated by dots, optionally followed by a
dash and a non-empty digit run. -/
def SemverShaped (m : List Char) : Prop :=
  ∃ d1 d2 d3 t, m = d1 ++ '.' :: d2 ++ '.' :: d3 ++ t ∧
    d1 ≠ [] ∧ allDigits d1 = true ∧
    d2 ≠ [] ∧ allDigits d2 = true ∧
    d3 ≠ [] ∧ allDigits d3 = true ∧
    (t = [] ∨ ∃ d4, t = '-' :: d4 ∧ d4 ≠ [] ∧ allDigits d4 = true)

/-- A concrete filesystem: the script lives in `/opt/anchord`, `/bin/sh`
is an executable regular file, and PATH lookup finds `sh` there.  There
is no file `/opt/anchord/sh`. -/
def envShell : FSEnv where
  scriptDir := "/opt/anchord"
  home := "/root"
  userHome := fun _ => none
  isFile := fun p => p == "/bin/sh"
  pathExists := fun p => p == "/bin/sh"
  accessX := fun p => p == "/bin/sh"
  which := fun n => if n == "sh" then some "/bin/sh" else none

/-- A concrete empty filesystem (nothing exists). -/
def envEmpty : FSEnv where
  scriptDir := "/opt/anchord"
  home := "/root"
  userHome := fun _ => none
  isFile := fun _ => false
  pathExists := fun _ => false
  accessX := fun _ => false
  which := fun _ => none

/-- A concrete probe environment: the status command succeeds with
stdout `payload`, which parses to the object `{version: 1}`. -/
def envProbe : ProcEnv where
  run := fun _ => .ok ⟨0, "payload", ""⟩
  jsonLoads := fun s => if s == "payload" then .ok (.dict [("version", "1")]) else .error "Expecting value: line 1 column 1 (char 0)"

/-! ## Helper lemmas: paths and the resolver -/

theorem startsWithL_slash_mem {cs : List Char} (h : startsWithL ['/'] cs = true) :
    '/' ∈ cs := by
  cases cs with
  | nil => simp [startsWithL] at h
  | cons c rest =>
    simp [startsWithL] at h
    rw [h]
    exact List.mem_cons_self _ _

theorem replicate_slash_startsWith (n : Nat) (hn : 1 ≤ n) (body : List Char) :
    startsWithL ['/'] (List.replicate n '/' ++ body) = true ∧
    List.replicate n '/' ++ body ≠ [] := by
  cases n with
  | zero => omega
  | succ m => simp [List.replicate, startsWithL]

theorem ite_replicate_slash (n : Nat) (hn : 1 ≤ n) (body : List Char) :
    startsWithL ['/']
      (if List.replicate n '/' ++ body = [] then ['.']
        else List.replicate n '/' ++ body) = true := by
  obtain ⟨h1, h2⟩ := replicate_slash_startsWith n hn body
  rw [if_neg h2]
  exact h1

theorem normpathL_abs {cs : List Char} (h : startsWithL ['/'] cs = true) :
    startsWithL ['/'] (normpathL cs) = true := by
  have hne : cs ≠ [] := by
    intro he
    rw [he] at h
    simp [startsWithL] at h
  unfold normpathL
  rw [if_neg hne]
  dsimp only
  by_cases h2 : startsWithL ['/', '/'] cs = true ∧ ¬ startsWithL ['/', '/', '/'] cs = true
  · simp only [if_pos h2]
    exact ite_replicate_slash 2 (by omega) _
  · simp only [if_neg h2, h, if_true]
    exact ite_replicate_slash 1 (by omega) _

theorem startsWithL_slash_shape {a : List Char} (ha : startsWithL ['/'] a = true) :
    ∃ t, a = '/' :: t := by
  cases a with
  | nil => simp [startsWithL] at ha
  | cons c rest =>
    simp [startsWithL] at ha
    exact ⟨rest, by rw [ha]⟩

theorem pyJoinL_abs {a : List Char} (b : List Char)
    (ha : startsWithL ['/'] a = true) :
    startsWithL ['/'] (pyJoinL a b) = true := by
  unfold pyJoinL
  by_cases hb : startsWithL ['/'] b = true
  · rw [if_pos hb]
    exact hb
  · rw [if_neg hb]
    obtain ⟨t, rfl⟩ := startsWithL_slash_shape ha
    by_cases hc : ('/' : Char) :: t = [] ∨ (('/' : Char) :: t).getLast? = some '/'
    · rw [if_pos hc]
      simp [startsWithL]
    · rw [if_neg hc]
      simp [startsWithL]

theorem afterLastSlash_no_slash (cs : List Char) : '/' ∉ afterLastSlash cs := by
  unfold afterLastSlash
  intro h
  rw [List.mem_reverse] at h
  have := List.mem_takeWhile_imp h
  simp at this

theorem afterLastSlash_ne {cs : List Char} (h : '/' ∈ cs) : afterLastSlash cs ≠ cs := by
  intro he
  apply afterLastSlash_no_slash cs
  rw [he]
  exact h

/-- For any non-empty input, the expanded path contains a separator:
either the expansion is already absolute, or it is `normpath` of a join
against the (absolute) script directory. -/
theorem expand_abs_has_slash (env : FSEnv) (hwf : env.WF) (p : String) (hp : p ≠ "") :
    '/' ∈ (_expand_abs env p).data := by
  unfold _expand_abs
  rw [if_neg hp]
  by_cases habs : startsWithL ['/'] (expanduser env p).data = true
  · rw [if_pos habs]
    exact startsWithL_slash_mem habs
  · rw [if_neg habs]
    show '/' ∈ normpathL (pyJoinL env.scriptDir.data (expanduser env p).data)
    exact startsWithL_slash_mem (normpathL_abs (pyJoinL_abs _ hwf.scriptAbs))

/-- For any non-empty input, the bare-name test
`os.path.basename(p) == p` is `False` on the expanded path: expansion
always inserts a separator, so the PATH branch of `resolve_executable`
is unreachable. -/
theorem expand_abs_basename_ne (env : FSEnv) (hwf : env.WF) (p : String) (hp : p ≠ "") :
    pyBasename (_expand_abs env p) ≠ _expand_abs env p := by
  intro he
  have hd : afterLastSlash (_expand_abs env p).data = (_expand_abs env p).data :=
    congrArg String.data he
  exact afterLastSlash_ne (expand_abs_has_slash env hwf p hp) hd

/-! ## Claim C1 -/

/-- C1: the claim says a non-empty input with no path separator is
resolved through the executable search path (PATH).  In the code,
`_expand_abs` runs **before** the bare-name test, and for non-empty
input it always produces a string containing a separator
(`expand_abs_basename_ne`), so the `shutil.which` branch is dead code.
Concretely: with `/bin/sh` on PATH (`which "sh" = /bin/sh`) and no
`sh` in the script directory, `resolve_executable "sh"` expands to
`/opt/anchord/sh` and returns `None` without consulting PATH —
contradicting the claim, the function docstring ("Accept ... bare
program names"), the comment on the branch, and the printed tip. -/
theorem C1_bare_name_not_resolved_through_search_path :
    resolve_executable envShell "sh" = none ∧
    envShell.which "sh" = some "/bin/sh" ∧
    _expand_abs envShell "sh" = "/opt/anchord/sh" := by
  refine ⟨by decide, rfl, by decide⟩

/-! ## Claim C8 -/

/-- C8: for every input whose expanded path does not exist on the
filesystem, `resolve_executable` returns `None`, and
`explain_exec_problem` prints exactly the header, the "File not found"
hint and the generic tip — never the not-executable or noexec-mount
hints. -/
theorem C8_missing_path_diagnosed_as_not_found (env : FSEnv) (hwf : env.WF)
    (label path : String)
    (hmiss : env.pathExists (_expand_abs env path) = false) :
    resolve_executable env path = none ∧
    explain_exec_problem env label path =
      ["\n[" ++ label ++ "] Cannot execute: " ++ path,
       "[!] File not found. Check daemons.json paths",
       "[!] Tip: use absolute paths, or put the binary in PATH and set just the program name in daemons.json."] := by
  constructor
  · unfold resolve_executable
    by_cases hp : path = ""
    · rw [if_pos hp]
    · rw [if_neg hp]
      rw [if_neg (expand_abs_basename_ne env hwf path hp)]
      have hisf : env.isFile (_expand_abs env path) = false := by
        cases hif : env.isFile (_expand_abs env path) with
        | false => rfl
        | true =>
          rw [hwf.fileExists _ hif] at hmiss
          cases hmiss
      rw [hisf]
      simp
  · unfold explain_exec_problem red_error
    simp only [hmiss, if_pos]
    rfl

/-- Witness for C8 at a concrete input: on an empty filesystem,
`/bin/nosuch` is reported missing. -/
theorem C8_witness :
    resolve_executable envEmpty "/bin/nosuch" = none ∧
    explain_exec_problem envEmpty "X daemon" "/bin/nosuch" =
      ["\n[" ++ "X daemon" ++ "] Cannot execute: " ++ "/bin/nosuch",
       "[!] File not found. Check daemons.json paths",
       "[!] Tip: use absolute paths, or put the binary in PATH and set just the program name in daemons.json."] :=
  C8_missing_path_diagnosed_as_not_found envEmpty
    ⟨by decide, by intro p h; simp [envEmpty] at h⟩ "X daemon" "/bin/nosuch" rfl

/-! ## Helper lemmas: the semver pattern -/

theorem allDigits_takeWhile (cs : List Char) :
    allDigits (cs.takeWhile Char.isDigit) = true := by
  simp only [allDigits, List.all_eq_true]
  intro c hc
  exact List.mem_takeWhile_imp hc

theorem takeDigits_spec {cs ds rest : List Char}
    (h : takeDigits cs = some (ds, rest)) :
    ds ≠ [] ∧ allDigits ds = true := by
  unfold takeDigits at h
  by_cases he : cs.takeWhile Char.isDigit = []
  · simp only [he, if_pos] at h
    cases h
  · rw [if_neg he] at h
    cases h
    exact ⟨he, allDigits_takeWhile cs⟩

theorem matchSemverAt_shape {cs m : List Char}
    (h : matchSemverAt cs = some m) : SemverShaped m := by
  unfold matchSemverAt at h
  split at h
  · cases h
  · next d1 r1 h1 =>
    split at h
    case _ r1' =>
      split at h
      · cases h
      · next d2 r2 h2 =>
        split at h
        case _ r2' =>
          split at h
          · cases h
          · next d3 r3 h3 =>
            simp only [Option.some.injEq] at h
            obtain ⟨hd1a, hd1b⟩ := takeDigits_spec h1
            obtain ⟨hd2a, hd2b⟩ := takeDigits_spec h2
            obtain ⟨hd3a, hd3b⟩ := takeDigits_spec h3
            refine ⟨d1, d2, d3, _, h.symm, hd1a, hd1b, hd2a, hd2b, hd3a, hd3b, ?_⟩
            split
            · next r4 =>
              split
              · next d4 r5 h4 =>
                obtain ⟨hd4a, hd4b⟩ := takeDigits_spec h4
                exact Or.inr ⟨d4, rfl, hd4a, hd4b⟩
              · exact Or.inl rfl
            · exact Or.inl rfl
        case _ => cases h
    case _ => cases h

theorem semverSearchL_shape {cs m : List Char}
    (h : semverSearchL cs = some m) : SemverShaped m := by
  induction cs with
  | nil => cases h
  | cons c rest ih =>
    unfold semverSearchL at h
    split at h
    · next m' heq =>
      cases h
      exact matchSemverAt_shape heq
    · exact ih h

/-! ## Claim C2 -/

/-- C2 (amended): `normalize_version` never raises (it is a total
function); `None` becomes `""`; a stripped value with a leading `v`
has the `v` dropped and the **remainder returned as-is, with no
substring extraction**; only a value with no leading `v` gets the
first `\d+\.\d+\.\d+(-\d+)?` substring extracted (and that extract is
semver-shaped), with the stripped original as fallback when there is
no match. -/
theorem C2_normalize_version_behaviour :
    normalize_version .pynone = "" ∧
    (∀ (s : String) (rest : List Char), pyStripL s.data = 'v' :: rest →
      normalize_version (.str s) = ⟨rest⟩) ∧
    (∀ (s : String) (m : List Char),
      (∀ rest : List Char, pyStripL s.data ≠ 'v' :: rest) →
      semverSearchL (pyStripL s.data) = some m →
      normalize_version (.str s) = ⟨m⟩ ∧ SemverShaped m) ∧
    (∀ s : String,
      (∀ rest : List Char, pyStripL s.data ≠ 'v' :: rest) →
      semverSearchL (pyStripL s.data) = none →
      normalize_version (.str s) = pyStrip s) := by
  refine ⟨rfl, ?_, ?_, ?_⟩
  · intro s rest h
    show normalize_core s.data = _
    unfold normalize_core
    rw [h]
    rfl
  · intro s m hnv hm
    refine ⟨?_, semverSearchL_shape hm⟩
    show normalize_core s.data = _
    unfold normalize_core
    split
    · next r heq => exact absurd heq (hnv r)
    · rw [hm]
  · intro s hnv hnone
    show normalize_core s.data = _
    unfold normalize_core
    split
    · next r heq => exact absurd heq (hnv r)
    · rw [hnone]
      rfl

/-- Witness for C2 at concrete inputs: a leading-`v` value loses only
the `v`; a `v`-less value gets the embedded version extracted. -/
theorem C2_witness :
    normalize_version (.str " v1.2 ") = "1.2" ∧
    normalize_version (.str "release 9.8.7 final") = "9.8.7" := by
  constructor
  · exact C2_normalize_version_behaviour.2.1 " v1.2 " "1.2".data (by decide)
  · refine (C2_normalize_version_behaviour.2.2.1 "release 9.8.7 final" "9.8.7".data
      ?_ (by decide)).1
    intro rest hh
    have h2 : (pyStripL "release 9.8.7 final".data).head? = some 'v' := by
      rw [hh]
      rfl
    exact absurd h2 (by decide)

/-- Counterexample to C2 as stated: on `"v1.2.3-beta"` the code
returns `"1.2.3-beta"` (it stops after stripping the `v`), while the
claim's strip-then-extract normalisation would return `"1.2.3"`. -/
theorem C2_counterexample :
    normalize_version (.str "v1.2.3-beta") = "1.2.3-beta" ∧
    normalize_version_spec (.str "v1.2.3-beta") = "1.2.3" ∧
    ¬ normalize_version (.str "v1.2.3-beta") =
        normalize_version_spec (.str "v1.2.3-beta") := by
  exact ⟨by decide, by decide, by decide⟩

/-! ## Helper lemmas: the version order -/

theorem natCmp_self (a : Nat) : natCmp a a = .eq := by
  unfold natCmp
  simp

theorem natCmp_eq_iff (a b : Nat) : natCmp a b = .eq ↔ a = b := by
  unfold natCmp
  split
  · constructor
    · intro h
      cases h
    · omega
  · split
    · simp_all
    · constructor
      · intro h
        cases h
      · omega

theorem natCmp_lt_iff (a b : Nat) : natCmp a b = .lt ↔ a < b := by
  unfold natCmp
  split
  · simp_all
  · split
    · constructor
      · intro h
        cases h
      · omega
    · constructor
      · intro h
        cases h
      · omega

theorem natCmp_gt_iff (a b : Nat) : natCmp a b = .gt ↔ b < a := by
  unfold natCmp
  split
  · constructor
    · intro h
      cases h
    · omega
  · split
    · constructor
      · intro h
        cases h
      · omega
    · constructor
      · intro _
        omega
      · intro _
        rfl

theorem listNatCmp_self (l : List Nat) : listNatCmp l l = .eq := by
  induction l with
  | nil => rfl
  | cons a as ih => simp [listNatCmp, natCmp_self, ih]

theorem listNatCmp_eq_iff (a b : List Nat) : listNatCmp a b = .eq ↔ a = b := by
  induction a generalizing b with
  | nil =>
    cases b with
    | nil => simp [listNatCmp]
    | cons y ys => simp [listNatCmp]
  | cons x xs ih =>
    cases b with
    | nil => simp [listNatCmp]
    | cons y ys =>
      simp only [listNatCmp]
      cases hxy : natCmp x y with
      | eq =>
        rw [natCmp_eq_iff] at hxy
        simp [hxy, ih]
      | lt =>
        rw [natCmp_lt_iff] at hxy
        constructor
        · intro h
          cases h
        · intro h
          injection h with h1 h2
          omega
      | gt =>
        rw [natCmp_gt_iff] at hxy
        constructor
        · intro h
          cases h
        · intro h
          injection h with h1 h2
          omega

theorem listNatCmp_swap (a b : List Nat) :
    listNatCmp a b = .lt ↔ listNatCmp b a = .gt := by
  induction a generalizing b with
  | nil =>
    cases b with
    | nil => simp [listNatCmp]
    | cons y ys => simp [listNatCmp]
  | cons x xs ih =>
    cases b with
    | nil => simp [listNatCmp]
    | cons y ys =>
      simp only [listNatCmp]
      cases hxy : natCmp x y with
      | eq =>
        have hyx : natCmp y x = .eq := by
          rw [natCmp_eq_iff] at hxy ⊢
          omega
        rw [hyx]
        exact ih ys
      | lt =>
        have hyx : natCmp y x = .gt := by
          rw [natCmp_lt_iff] at hxy
          rw [natCmp_gt_iff]
          omega
        rw [hyx]
        simp
      | gt =>
        have hyx : natCmp y x = .lt := by
          rw [natCmp_gt_iff] at hxy
          rw [natCmp_lt_iff]
          omega
        rw [hyx]
        constructor
        · intro h
          cases h
        · intro h
          cases h

theorem listNatCmp_trans {a b c : List Nat}
    (hab : listNatCmp a b = .lt) (hbc : listNatCmp b c = .lt) :
    listNatCmp a c = .lt := by
  induction a generalizing b c with
  | nil =>
    cases b with
    | nil => cases hab
    | cons y ys =>
      cases c with
      | nil => cases hbc
      | cons z zs => rfl
  | cons x xs ih =>
    cases b with
    | nil => cases hab
    | cons y ys =>
      cases c with
      | nil => cases hbc
      | cons z zs =>
        simp only [listNatCmp] at hab hbc ⊢
        cases hxy : natCmp x y with
        | eq =>
          rw [hxy] at hab
          rw [natCmp_eq_iff] at hxy
          cases hyz : natCmp y z with
          | eq =>
            rw [hyz] at hbc
            rw [natCmp_eq_iff] at hyz
            have : natCmp x z = .eq := by
              rw [natCmp_eq_iff]
              omega
            rw [this]
            exact ih hab hbc
          | lt =>
            rw [natCmp_lt_iff] at hyz
            have : natCmp x z = .lt := by
              rw [natCmp_lt_iff]
              omega
            rw [this]
          | gt =>
            rw [hyz] at hbc
            cases hbc
        | lt =>
          rw [natCmp_lt_iff] at hxy
          cases hyz : natCmp y z with
          | eq =>
            rw [natCmp_eq_iff] at hyz
            have : natCmp x z = .lt := by
              rw [natCmp_lt_iff]
              omega
            rw [this]
          | lt =>
            rw [natCmp_lt_iff] at hyz
            have : natCmp x z = .lt := by
              rw [natCmp_lt_iff]
              omega
            rw [this]
          | gt =>
            rw [hyz] at hbc
            cases hbc
        | gt =>
          rw [hxy] at hab
          cases hab

theorem postCmp_self (a : Option Nat) : postCmp a a = .eq := by
  cases a with
  | none => rfl
  | some n => simp [postCmp, natCmp_self]

theorem postCmp_eq_iff (a b : Option Nat) : postCmp a b = .eq ↔ a = b := by
  cases a <;> cases b <;> simp [postCmp, natCmp_eq_iff]

theorem postCmp_swap (a b : Option Nat) :
    postCmp a b = .lt ↔ postCmp b a = .gt := by
  cases a <;> cases b <;>
    simp [postCmp, natCmp_lt_iff, natCmp_gt_iff]

theorem postCmp_trans {a b c : Option Nat}
    (hab : postCmp a b = .lt) (hbc : postCmp b c = .lt) :
    postCmp a c = .lt := by
  cases a <;> cases b <;> cases c <;>
    simp_all [postCmp, natCmp_lt_iff]
  omega

theorem pyVersionCmp_self (a : PyVersion) : pyVersionCmp a a = .eq := by
  unfold pyVersionCmp
  rw [listNatCmp_self]
  exact postCmp_self a.post

theorem pyVersionCmp_swap (a b : PyVersion) :
    pyVersionCmp a b = .lt ↔ pyVersionCmp b a = .gt := by
  unfold pyVersionCmp
  cases hr : listNatCmp (releaseKey a.release) (releaseKey b.release) with
  | eq =>
    have hr2 : listNatCmp (releaseKey b.release) (releaseKey a.release) = .eq := by
      rw [listNatCmp_eq_iff] at hr ⊢
      exact hr.symm
    rw [hr2]
    exact postCmp_swap a.post b.post
  | lt =>
    have hr2 : listNatCmp (releaseKey b.release) (releaseKey a.release) = .gt :=
      (listNatCmp_swap _ _).1 hr
    rw [hr2]
    simp
  | gt =>
    have hr2 : listNatCmp (releaseKey b.release) (releaseKey a.release) = .lt :=
      (listNatCmp_swap _ _).2 hr
    rw [hr2]
    constructor
    · intro h
      cases h
    · intro h
      cases h

theorem pyVersionCmp_trans {a b c : PyVersion}
    (hab : pyVersionCmp a b = .lt) (hbc : pyVersionCmp b c = .lt) :
    pyVersionCmp a c = .lt := by
  unfold pyVersionCmp at hab hbc ⊢
  cases h1 : listNatCmp (releaseKey a.release) (releaseKey b.release) with
  | gt => rw [h1] at hab; cases hab
  | lt =>
    cases h2 : listNatCmp (releaseKey b.release) (releaseKey c.release) with
    | gt => rw [h2] at hbc; cases hbc
    | lt => rw [listNatCmp_trans h1 h2]
    | eq =>
      have he : releaseKey b.release = releaseKey c.release :=
        (listNatCmp_eq_iff _ _).1 h2
      rw [← he, h1]
  | eq =>
    have he : releaseKey a.release = releaseKey b.release :=
      (listNatCmp_eq_iff _ _).1 h1
    rw [h1] at hab
    cases h2 : listNatCmp (releaseKey b.release) (releaseKey c.release) with
    | gt => rw [h2] at hbc; cases hbc
    | lt => rw [he, h2]
    | eq =>
      rw [h2] at hbc
      rw [he, h2]
      exact postCmp_trans hab hbc

/-! ## Claim C3 -/

/-- C3 (amended): the comparison behind `check_versions` is a total
order on parsed versions (reflexively `eq`, `lt`/`gt` mirror each
other, `lt` is transitive; the comparison is a total function into
three cases); `"1.2.3"` and `"v1.2.3"` compare equal and `"1.2.3"`
is below `"1.2.4"`, but `"1.2.3-1"` is **greater** than `"1.2.3"`
(PEP 440 reads `-1` as a post-release, not a pre-release); an empty
normalized string on either side gives the "Could not determine
version(s)" outcome, while a non-empty unparseable one gives the
"Unable to parse versions" outcome — in both cases without raising
(the outcome function is total). -/
theorem C3_version_comparison_order :
    (∀ a : PyVersion, pyVersionCmp a a = .eq) ∧
    (∀ a b : PyVersion, pyVersionCmp a b = .lt ↔ pyVersionCmp b a = .gt) ∧
    (∀ a b c : PyVersion, pyVersionCmp a b = .lt → pyVersionCmp b c = .lt →
      pyVersionCmp a c = .lt) ∧
    check_versions_outcome (.str "1.2.3") (.str "v1.2.3") = .upToDate ∧
    check_versions_outcome (.str "1.2.3") (.str "1.2.4") = .mismatch ∧
    check_versions_outcome (.str "1.2.3-1") (.str "1.2.3") = .localNewer ∧
    (∀ a b : PyVal, normalize_version a = "" ∨ normalize_version b = "" →
      check_versions_outcome a b = .couldNotDetermine) ∧
    (∀ a b : PyVal, normalize_version a ≠ "" → normalize_version b ≠ "" →
      pep440_parse (normalize_version a) = none ∨
        pep440_parse (normalize_version b) = none →
      check_versions_outcome a b = .unableToParse) := by
  refine ⟨pyVersionCmp_self, pyVersionCmp_swap, fun a b c => pyVersionCmp_trans,
    by decide, by decide, by decide, ?_, ?_⟩
  · intro a b h
    unfold check_versions_outcome
    rcases h with h | h <;> simp [h]
  · intro a b ha hb h
    unfold check_versions_outcome
    rw [if_neg (by push_neg; exact ⟨ha, hb⟩)]
    rcases h with h | h
    · rw [h]
    · rw [h]
      rcases hp : pep440_parse (normalize_version a) with _ | v <;> rfl

/-- Witness for C3 at concrete inputs: a `None` local version reports
"could not determine"; a garbled non-empty local version reports
"unable to parse". -/
theorem C3_witness :
    check_versions_outcome .pynone (.str "1.2.3") = .couldNotDetermine ∧
    check_versions_outcome (.str "wat") (.str "1.2.3") = .unableToParse :=
  ⟨C3_version_comparison_order.2.2.2.2.2.2.1 .pynone (.str "1.2.3") (Or.inl rfl),
   C3_version_comparison_order.2.2.2.2.2.2.2 (.str "wat") (.str "1.2.3")
     (by decide) (by decide) (Or.inl (by decide))⟩

/-- Counterexample to C3 as stated: the code orders `"1.2.3-1"`
**above** `"1.2.3"` (the `check_versions` outcome is "local newer than
remote", not the claimed mismatch/less-than), and a non-empty
unparseable input produces the "unable to parse" outcome, not the
claimed "could not determine". -/
theorem C3_counterexample :
    pyVersionCmp ⟨[1, 2, 3], some 1⟩ ⟨[1, 2, 3], none⟩ = .gt ∧
    check_versions_outcome (.str "1.2.3-1") (.str "1.2.3") = .localNewer ∧
    check_versions_outcome (.str "1.2.3-1") (.str "1.2.3") ≠ .mismatch ∧
    check_versions_outcome (.str "wat") (.str "1.2.3") = .unableToParse ∧
    check_versions_outcome (.str "wat") (.str "1.2.3") ≠ .couldNotDetermine := by
  exact ⟨by decide, by decide, by decide, by decide, by decide⟩

/-! ## Claim C4 -/

/-- C4: `getinfo` captures every failure path.  On exit code 0 with
stdout parsing to a key-value object, the parsed payload is returned;
on non-zero exit the result is `{"error": stderr.strip()}`; on a JSON
decode failure or an invocation exception the result is
`{"error": str(e)}`.  The embedding is a total function, so no path
raises to the caller. -/
theorem C4_getinfo_failure_capture (env : ProcEnv)
    (cli_path data_dir : String) (cli_args : List String) :
    (∀ (r : ProcResult) (es : List (String × String)),
      env.run ([cli_path, "-datadir=" ++ data_dir] ++ cli_args ++ ["getinfo"]) = .ok r →
      r.returncode = 0 → env.jsonLoads r.stdout = .ok (.dict es) →
      getinfo env cli_path data_dir cli_args = .dict es) ∧
    (∀ r : ProcResult,
      env.run ([cli_path, "-datadir=" ++ data_dir] ++ cli_args ++ ["getinfo"]) = .ok r →
      r.returncode ≠ 0 →
      getinfo env cli_path data_dir cli_args = .dict [("error", pyStrip r.stderr)]) ∧
    (∀ (r : ProcResult) (e : String),
      env.run ([cli_path, "-datadir=" ++ data_dir] ++ cli_args ++ ["getinfo"]) = .ok r →
      r.returncode = 0 → env.jsonLoads r.stdout = .error e →
      getinfo env cli_path data_dir cli_args = .dict [("error", e)]) ∧
    (∀ e : String,
      env.run ([cli_path, "-datadir=" ++ data_dir] ++ cli_args ++ ["getinfo"]) = .error e →
      getinfo env cli_path data_dir cli_args = .dict [("error", e)]) := by
  refine ⟨?_, ?_, ?_, ?_⟩
  · intro r es hrun hrc hjson
    unfold getinfo
    rw [hrun]
    simp [hrc, hjson]
  · intro r hrun hrc
    unfold getinfo
    rw [hrun]
    simp [hrc]
  · intro r e hrun hrc hjson
    unfold getinfo
    rw [hrun]
    simp [hrc, hjson]
  · intro e hrun
    unfold getinfo
    rw [hrun]

/-- Witness for C4 at a concrete environment: a successful probe whose
stdout parses returns the parsed payload. -/
theorem C4_witness :
    getinfo envProbe "cli" "/data" [] = .dict [("version", "1")] :=
  (C4_getinfo_failure_capture envProbe "cli" "/data" []).1
    ⟨0, "payload", ""⟩ [("version", "1")] rfl rfl rfl

/-! ## Claim C9 -/

/-- C9: the log offset only ever advances: the position returned by
`read_debug_log` is at least the position passed in — including when
the file is missing (position unchanged) and when the file has shrunk
below the position (position unchanged) — and `get_log_file_position`
is the end-of-file offset, or 0 for a missing file. -/
theorem C9_offset_monotone :
    (∀ (file? : Option (List Char)) (pos : Nat) (msg : Option (List Char)),
      pos ≤ (read_debug_log file? pos msg).2.1) ∧
    (∀ content : List Char, get_log_file_position (some content) = content.length) ∧
    get_log_file_position none = 0 := by
  refine ⟨?_, fun _ => rfl, rfl⟩
  intro file? pos msg
  cases file? with
  | none => simp [read_debug_log]
  | some content => simp [read_debug_log]

/-! ## Helper lemmas: log tailing -/

theorem pyLinesAux_append (l rest acc : List Char) (hl : '\n' ∉ l) :
    pyLinesAux (l ++ '\n' :: rest) acc =
      (acc.reverse ++ l ++ ['\n']) :: pyLinesAux rest [] := by
  induction l generalizing acc with
  | nil => simp [pyLinesAux]
  | cons c cs ih =>
    have hc : c ≠ '\n' := by
      intro he
      exact hl (he ▸ List.mem_cons_self c cs)
    have hcs : '\n' ∉ cs := fun h => hl (List.mem_cons_of_mem _ h)
    simp only [List.cons_append, pyLinesAux, if_neg hc, List.append_eq]
    rw [ih _ hcs]
    simp

theorem pyLinesL_cons_line (l rest : List Char) (hl : '\n' ∉ l) :
    pyLinesL (l ++ '\n' :: rest) = (l ++ ['\n']) :: pyLinesL rest := by
  unfold pyLinesL
  rw [pyLinesAux_append l rest [] hl]
  simp

theorem processLogLines_no_updateTip (ls : List (List Char)) :
    ∀ (msg : Option (List Char)) (l : List Char),
      l ∈ (processLogLines ls msg).1 →
      startsWithL "UpdateTip".data l = false := by
  induction ls with
  | nil =>
    intro msg l h
    simp [processLogLines] at h
  | cons x xs ih =>
    intro msg l h
    unfold processLogLines at h
    by_cases hU : startsWithL "UpdateTip".data (stripLogLine x) = true
    · rw [if_pos hU] at h
      exact ih msg l h
    · rw [if_neg hU] at h
      by_cases hne : some (stripLogLine x) ≠ msg
      · rw [if_pos hne] at h
        simp only [List.mem_cons] at h
        rcases h with h | h
        · rw [h]
          exact Bool.not_eq_true _ ▸ (by simpa using hU)
        · exact ih _ l h
      · rw [if_neg hne] at h
        exact ih msg l h

theorem read_debug_log_no_updateTip (file? : Option (List Char)) (pos : Nat)
    (msg : Option (List Char)) (l : List Char)
    (h : l ∈ (read_debug_log file? pos msg).1) :
    startsWithL "UpdateTip".data l = false := by
  cases file? with
  | none =>
    simp only [read_debug_log, List.mem_singleton] at h
    rw [h]
    decide
  | some content =>
    simp only [read_debug_log] at h
    exact processLogLines_no_updateTip _ _ _ h

/-! ## Claim C5 -/

/-- C5: when the new content of the log is three identical (non-noise)
lines followed by one distinct (non-noise) line, `read_debug_log`
emits exactly two lines — the first of the run and the distinct one;
and, for arbitrary log content and state, no emitted line starts with
`UpdateTip`. -/
theorem C5_log_dedup_and_noise_filter
    (content : List Char) (pos : Nat) (msg : Option (List Char))
    (l1 l2 l3 l4 a b : List Char)
    (hd : content.drop pos =
      l1 ++ '\n' :: (l2 ++ '\n' :: (l3 ++ '\n' :: (l4 ++ '\n' :: []))))
    (h1 : '\n' ∉ l1) (h2 : '\n' ∉ l2) (h3 : '\n' ∉ l3) (h4 : '\n' ∉ l4)
    (hs1 : stripLogLine (l1 ++ ['\n']) = a) (hs2 : stripLogLine (l2 ++ ['\n']) = a)
    (hs3 : stripLogLine (l3 ++ ['\n']) = a) (hs4 : stripLogLine (l4 ++ ['\n']) = b)
    (hab : a ≠ b)
    (hUa : startsWithL "UpdateTip".data a = false)
    (hUb : startsWithL "UpdateTip".data b = false)
    (hm : msg ≠ some a) :
    (read_debug_log (some content) pos msg).1 = [a, b] ∧
    (∀ (file? : Option (List Char)) (p : Nat) (m : Option (List Char)) (l : List Char),
      l ∈ (read_debug_log file? p m).1 → startsWithL "UpdateTip".data l = false) := by
  refine ⟨?_, read_debug_log_no_updateTip⟩
  have hma : some a ≠ msg := Ne.symm hm
  have hba : some b ≠ some a := by
    intro he
    exact hab ((Option.some.inj he).symm)
  have haa : ¬ (some a ≠ some a) := by simp
  simp only [read_debug_log, hd]
  rw [pyLinesL_cons_line l1 _ h1, pyLinesL_cons_line l2 _ h2,
    pyLinesL_cons_line l3 _ h3, pyLinesL_cons_line l4 _ h4]
  show (processLogLines ((l1 ++ ['\n']) :: (l2 ++ ['\n']) :: (l3 ++ ['\n'])
    :: (l4 ++ ['\n']) :: pyLinesL []) msg).1 = [a, b]
  simp only [processLogLines, hs1, hs2, hs3, hs4, hUa, hUb,
    Bool.false_eq_true, if_false, if_pos hma, haa, if_pos hba, pyLinesL, pyLinesAux]

/-- Witness for C5 at a concrete log: three renderings of the same
message (with varying timestamps) followed by a distinct line emit
exactly two lines. -/
theorem C5_witness :
    (read_debug_log
      (some ("2024-01-02 03:04:05 Loading block index\nLoading block index\n2024-01-02 03:04:06 Loading block index\n2024-01-02 03:04:07 Done loading\n".data))
      0 none).1 = ["Loading block index".data, "Done loading".data] ∧
    (∀ (file? : Option (List Char)) (p : Nat) (m : Option (List Char)) (l : List Char),
      l ∈ (read_debug_log file? p m).1 → startsWithL "UpdateTip".data l = false) :=
  C5_log_dedup_and_noise_filter
    "2024-01-02 03:04:05 Loading block index\nLoading block index\n2024-01-02 03:04:06 Loading block index\n2024-01-02 03:04:07 Done loading\n".data
    0 none
    "2024-01-02 03:04:05 Loading block index".data
    "Loading block index".data
    "2024-01-02 03:04:06 Loading block index".data
    "2024-01-02 03:04:07 Done loading".data
    "Loading block index".data "Done loading".data
    (by decide) (by decide) (by decide) (by decide) (by decide)
    (by decide) (by decide) (by decide) (by decide)
    (by decide) (by decide) (by decide) (by decide)

/-! ## Claim C6 -/

/-- Counterexample to C6 as stated: the claim quantifies over *every*
starting state, but from position 0 on the existing one-line file
`"hello\n"` the **first** call already returns a non-empty list. -/
theorem C6_counterexample :
    (read_debug_log (some "hello\n".data) 0 none).1 = ["hello".data] ∧
    (read_debug_log (some "hello\n".data) 0 none).1 ≠ [] := by
  exact ⟨by decide, by decide⟩

/-- C6 (amended): for an existing log file, a call whose starting
position is at or beyond end-of-file (in particular the session-start
state produced by `get_log_file_position`) returns an empty list with
position and message unchanged; and threading any call's returned
state into a second call on the unchanged file yields an empty list
with unchanged position and message. -/
theorem C6_read_idempotent_at_eof (content : List Char) (pos : Nat)
    (msg : Option (List Char)) :
    (content.length ≤ pos →
      read_debug_log (some content) pos msg = ([], pos, msg)) ∧
    read_debug_log (some content)
        (read_debug_log (some content) pos msg).2.1
        (read_debug_log (some content) pos msg).2.2 =
      ([], (read_debug_log (some content) pos msg).2.1,
        (read_debug_log (some content) pos msg).2.2) := by
  have key : ∀ (p : Nat) (m : Option (List Char)), content.length ≤ p →
      read_debug_log (some content) p m = ([], p, m) := by
    intro p m hp
    unfold read_debug_log
    dsimp only
    have hdrop : content.drop p = [] := List.drop_eq_nil_of_le hp
    rw [hdrop]
    simp [pyLinesL, pyLinesAux, processLogLines]
  constructor
  · exact key pos msg
  · apply key
    show content.length ≤ (read_debug_log (some content) pos msg).2.1
    unfold read_debug_log
    simp only [List.length_drop]
    omega

/-- Witness for C6 at a concrete input: at end-of-file the call is a
no-op. -/
theorem C6_witness :
    read_debug_log (some "hello\n".data) 6 none = ([], 6, none) :=
  (C6_read_idempotent_at_eof "hello\n".data 6 none).1 (by decide)

/-! ## Helper lemmas: startup monitoring -/

theorem extract_status_no_needle (t : String) :
    containsSubL "couldn\x27t connect to server".data (extract_status t).data = false := by
  unfold extract_status
  dsimp only
  split
  · decide
  · next h => simpa using h

theorem statusLinesOf_append (xs ys : List MonLine) :
    statusLinesOf (xs ++ ys) = statusLinesOf xs ++ statusLinesOf ys := by
  simp [statusLinesOf]

theorem statusLinesOf_logline (ls : List (List Char)) :
    statusLinesOf (ls.map MonLine.logline) = [] := by
  induction ls with
  | nil => rfl
  | cons x xs ih =>
    simp only [List.map_cons, statusLinesOf, List.filterMap_cons] at ih ⊢
    exact ih

theorem monitor_go_status_translated (probes : List PyJson) :
    ∀ (files : List (Option (List Char))) (le : Option String) (pos : Nat)
      (msg : Option (List Char)) (s : String),
      s ∈ statusLinesOf (monitor_go probes files le pos msg).1 →
      containsSubL "couldn\x27t connect to server".data s.data = false := by
  induction probes with
  | nil =>
    intro files le pos msg s h
    simp [monitor_go, statusLinesOf] at h
  | cons info rest ih =>
    intro files le pos msg s h
    unfold monitor_go at h
    by_cases hE : hasErrorKey info = true
    · rw [if_pos hE] at h
      dsimp only at h
      by_cases hne : some (extract_status (lookupError info)) ≠ le
      · rw [if_pos hne] at h
        rw [statusLinesOf_append, statusLinesOf_append, statusLinesOf_logline] at h
        simp only [List.append_nil, List.mem_append, statusLinesOf, List.filterMap_cons,
          List.filterMap_nil, List.mem_singleton] at h
        rcases h with h | h
        · rw [h]
          exact extract_status_no_needle _
        · exact ih _ _ _ _ s h
      · rw [if_neg hne] at h
        rw [statusLinesOf_append, statusLinesOf_append, statusLinesOf_logline] at h
        simp only [List.append_nil, List.mem_append, statusLinesOf, List.filterMap_nil,
          List.not_mem_nil, false_or] at h
        exact ih _ _ _ _ s h
    · rw [if_neg hE] at h
      simp [statusLinesOf] at h

theorem monitor_go_noAdjDup (probes : List PyJson) :
    ∀ (files : List (Option (List Char))) (le : Option String) (pos : Nat)
      (msg : Option (List Char)),
      noAdjDup le (statusLinesOf (monitor_go probes files le pos msg).1) := by
  induction probes with
  | nil =>
    intro files le pos msg
    simp [monitor_go, statusLinesOf, noAdjDup]
  | cons info rest ih =>
    intro files le pos msg
    unfold monitor_go
    by_cases hE : hasErrorKey info = true
    · rw [if_pos hE]
      dsimp only
      by_cases hne : some (extract_status (lookupError info)) ≠ le
      · rw [if_pos hne]
        rw [statusLinesOf_append, statusLinesOf_append, statusLinesOf_logline]
        simp only [List.append_nil, statusLinesOf, List.filterMap_cons, List.filterMap_nil]
        refine ⟨Ne.symm hne, ?_⟩
        exact ih _ _ _ _
      · rw [if_neg hne]
        rw [statusLinesOf_append, statusLinesOf_append, statusLinesOf_logline]
        simp only [List.append_nil, statusLinesOf, List.filterMap_nil, List.nil_append]
        exact ih _ _ _ _
    · rw [if_neg hE]
      simp [statusLinesOf, noAdjDup]

theorem monitor_go_all_error_not_ready (probes : List PyJson) :
    ∀ (files : List (Option (List Char))) (le : Option String) (pos : Nat)
      (msg : Option (List Char)),
      (∀ j ∈ probes, hasErrorKey j = true) →
      (monitor_go probes files le pos msg).2 = false := by
  induction probes with
  | nil =>
    intro files le pos msg _
    rfl
  | cons info rest ih =>
    intro files le pos msg hall
    unfold monitor_go
    rw [if_pos (hall info (List.mem_cons_self _ _))]
    dsimp only
    exact ih _ _ _ _ (fun j hj => hall j (List.mem_cons_of_mem _ hj))

theorem monitor_go_ready_has_ok (probes : List PyJson) :
    ∀ (files : List (Option (List Char))) (le : Option String) (pos : Nat)
      (msg : Option (List Char)),
      (monitor_go probes files le pos msg).2 = true →
      ∃ j ∈ probes, hasErrorKey j = false := by
  induction probes with
  | nil =>
    intro files le pos msg h
    cases h
  | cons info rest ih =>
    intro files le pos msg h
    unfold monitor_go at h
    by_cases hE : hasErrorKey info = true
    · rw [if_pos hE] at h
      dsimp only at h
      obtain ⟨j, hj, hjE⟩ := ih _ _ _ _ h
      exact ⟨j, List.mem_cons_of_mem _ hj, hjE⟩
    · exact ⟨info, List.mem_cons_self _ _, by simpa using hE⟩

/-! ## Claim C7 -/

/-- C7: in every run of `monitor_startup`, (1) no printed status line
still contains the raw "couldn\x27t connect to server" text — any
failure whose extracted message contains it is reported as
"starting RPC server"; (2) no status line equal to the immediately
previously reported status is printed (de-duplication, starting from
`last_error = None`); (3) in the concrete scenario where the probe
fails with "couldn\x27t connect to server" twice and then succeeds,
"starting RPC server" is printed exactly once and the run ends ready. -/
theorem C7_monitor_status_translation_and_dedup :
    (∀ (probes : List PyJson) (files : List (Option (List Char))) (s : String),
      s ∈ statusLinesOf (monitor_startup probes files).1 →
      containsSubL "couldn\x27t connect to server".data s.data = false) ∧
    (∀ (probes : List PyJson) (files : List (Option (List Char))),
      noAdjDup none (statusLinesOf (monitor_startup probes files).1)) ∧
    monitor_startup
      [.dict [("error", "error: couldn\x27t connect to server")],
       .dict [("error", "error: couldn\x27t connect to server")],
       .dict [("version", "1.2.3")]]
      [some [], some [], some []] =
      ([.status "starting RPC server", .ready], true) := by
  refine ⟨?_, ?_, by decide⟩
  · intro probes files s h
    exact monitor_go_status_translated probes _ _ _ _ s h
  · intro probes files
    exact monitor_go_noAdjDup probes _ _ _ _

/-- Witness for C7 at a concrete run: the status line actually printed
in the connect-refused scenario carries no raw connect-error text. -/
theorem C7_witness :
    containsSubL "couldn\x27t connect to server".data
      "starting RPC server".data = false :=
  C7_monitor_status_translation_and_dedup.1
    [.dict [("error", "error: couldn\x27t connect to server")],
     .dict [("error", "error: couldn\x27t connect to server")],
     .dict [("version", "1.2.3")]]
    [some [], some [], some []]
    "starting RPC server" (by decide)

/-! ## Claim C10 -/

/-- C10: a probe payload that parses as an object containing an
`"error"` key is indistinguishable from a failed probe: `getinfo`
returns the payload unchanged, `main` takes the launch path rather
than "already running", and `monitor_startup` never reports readiness
on a trace whose probe results all contain an `"error"` key —
conversely reaching readiness requires some probe result without the
key. -/
theorem C10_error_key_payload_never_ready :
    (∀ (env : ProcEnv) (cli dd : String) (args : List String)
      (r : ProcResult) (es : List (String × String)),
      env.run ([cli, "-datadir=" ++ dd] ++ args ++ ["getinfo"]) = .ok r →
      r.returncode = 0 → env.jsonLoads r.stdout = .ok (.dict es) →
      hasErrorKey (.dict es) = true →
      getinfo env cli dd args = .dict es ∧
      main_probe_branch (getinfo env cli dd args) = .launchPath) ∧
    (∀ (probes : List PyJson) (files : List (Option (List Char))),
      (∀ j ∈ probes, hasErrorKey j = true) →
      (monitor_startup probes files).2 = false) ∧
    (∀ (probes : List PyJson) (files : List (Option (List Char))),
      (monitor_startup probes files).2 = true →
      ∃ j ∈ probes, hasErrorKey j = false) := by
  refine ⟨?_, ?_, ?_⟩
  · intro env cli dd args r es hrun hrc hjson hkey
    have hget : getinfo env cli dd args = .dict es := by
      unfold getinfo
      rw [hrun]
      simp [hrc, hjson]
    refine ⟨hget, ?_⟩
    rw [hget]
    unfold main_probe_branch
    rw [if_pos hkey]
  · intro probes files hall
    exact monitor_go_all_error_not_ready probes _ _ _ _ hall
  · intro probes files h
    exact monitor_go_ready_has_ok probes _ _ _ _ h

/-- Witness for C10 at a concrete environment and trace: a successful
probe returning `{"error": null-ish}` keeps `main` on the launch path,
and a trace of such payloads never reaches readiness. -/
theorem C10_witness :
    (getinfo ⟨fun _ => .ok ⟨0, "ok", ""⟩,
        fun _ => .ok (.dict [("error", ""), ("version", "1")])⟩ "cli" "/d" [] =
      .dict [("error", ""), ("version", "1")] ∧
     main_probe_branch (getinfo ⟨fun _ => .ok ⟨0, "ok", ""⟩,
        fun _ => .ok (.dict [("error", ""), ("version", "1")])⟩ "cli" "/d" []) =
      .launchPath) ∧
    (monitor_startup [.dict [("error", ""), ("version", "1")]] [some []]).2 = false :=
  ⟨C10_error_key_payload_never_ready.1 _ "cli" "/d" [] ⟨0, "ok", ""⟩
      [("error", ""), ("version", "1")] rfl rfl rfl (by decide),
   C10_error_key_payload_never_ready.2.1 _ [some []]
      (by intro j hj; simp only [List.mem_singleton] at hj; rw [hj]; decide)⟩
